import Mathlib

/-!
Verification of the auction platform bid controller
(src/controllers/bidController.js) against its specification.

The controller is embedded shallowly: the Mongo collections become lists
of records in a `Store`, a handler becomes a function from the store (and
the request data) to a result together with the updated store, and a
`withTransaction` body becomes a function returning `Except`, where an
error means the whole transaction rolls back and the store is unchanged.

Because `placeBid` first reads the auction outside the transaction
(`Auction.findById` at the top of the handler) and then re-fetches it
inside the transaction, the embedding takes two store arguments: `pre`,
the store as it was when the handler performed its initial read, and
`txn`, the store the transaction body runs against.  In a serial
execution the two coincide; under concurrent writers they may differ,
which is exactly the situation the specification discusses.

JavaScript truthiness of the request field `amount` (the `!amount` test)
is modelled by `jsFalsy` on `Option Int`: an absent field and the number
0 are falsy.  Error objects mirror `ErrorHandler(message, statusCode)`;
the one `ErrorHandler` constructed without a status (in `republishItem`)
is given the middleware default 500.  Mongo object ids are modelled as
`Nat`, so the `ObjectId.isValid` guards always pass and are omitted.
-/

/-- An entry of the embedded `auction.bids` subarray. -/
structure EmbBid where
  userId : Nat
  userName : String
  profileImage : String
  amount : Int
deriving Repr, DecidableEq

/-- An `Auction` document. -/
structure Auction where
  id : Nat
  startingBid : Int
  currentBid : Int
  startTime : Int
  endTime : Int
  bids : List EmbBid
  highestBidder : Option Nat
  commissionCalculated : Bool
  createdBy : Nat
deriving Repr, DecidableEq

/-- A standalone `Bid` document: `{amount, bidder, auctionItem}`. -/
structure BidDoc where
  bidderId : Nat
  bidderName : String
  bidderImage : String
  amount : Int
  auctionItem : Nat
deriving Repr, DecidableEq

/-- A `User` document (the fields the controller touches). -/
structure User where
  id : Nat
  userName : String
  profileImage : String
  moneySpent : Int
  auctionsWon : Int
  unpaidCommission : Int
deriving Repr, DecidableEq

/-- The durable store: the three collections. -/
structure Store where
  auctions : List Auction
  bids : List BidDoc
  users : List User
deriving Repr, DecidableEq

/-- `ErrorHandler(message, statusCode)`. -/
structure ErrHandler where
  message : String
  statusCode : Int
deriving Repr, DecidableEq

/-- `Auction.findById(id)`. -/
def findAuction (s : Store) (id : Nat) : Option Auction :=
  s.auctions.find? (fun a => a.id == id)

/-- `Bid.findOne({"bidder.id": uid, auctionItem: aid})`. -/
def findBidDoc (s : Store) (uid aid : Nat) : Option BidDoc :=
  s.bids.find? (fun b => b.bidderId == uid && b.auctionItem == aid)

/-- `User.findById(uid)`. -/
def findUser (s : Store) (uid : Nat) : Option User :=
  s.users.find? (fun u => u.id == uid)

/-- Mongoose `document.save()` semantics over a list: replace the first
element matching `p` by its image under `f`, leaving the rest alone. -/
def updateFirstWhere {α : Type} (p : α → Bool) (f : α → α) : List α → List α
  | [] => []
  | x :: rest => if p x then f x :: rest else x :: updateFirstWhere p f rest

/-- `auction.save()`: write the (possibly mutated) auction document back. -/
def saveAuction (s : Store) (a : Auction) : Store :=
  { s with auctions := updateFirstWhere (fun x => x.id == a.id) (fun _ => a) s.auctions }

/-- `user.save()`: write the (possibly mutated) user document back. -/
def saveUser (s : Store) (u : User) : Store :=
  { s with users := updateFirstWhere (fun x => x.id == u.id) (fun _ => u) s.users }

/-- JavaScript truthiness test `!amount` for a request body number field:
absent and `0` are falsy. -/
def jsFalsy (a : Option Int) : Bool :=
  match a with
  | none => true
  | some v => v == 0

/-- The `withTransaction` body of `placeBid` (steps 1 to 6 of the source):
re-fetch the auction, look up the standalone `Bid` and the embedded entry
for the bidder, update both if both exist, otherwise insert both fresh,
then set `currentBid = amount` unconditionally.  An error rolls the
transaction back. -/
def placeBidTxn (txn : Store) (auctionId reqUserId : Nat) (amount : Int) :
    Except ErrHandler Store :=
  match findAuction txn auctionId with
  | none => .error ⟨"Auction Item not found.", 404⟩
  | some auction =>
    let existingBid := findBidDoc txn reqUserId auctionId
    let existingBidInAuction := auction.bids.find? (fun b => b.userId == reqUserId)
    match existingBid, existingBidInAuction with
    | some _, some _ =>
      let s1 : Store :=
        { txn with bids := (updateFirstWhere
            (fun b => b.bidderId == reqUserId && b.auctionItem == auctionId)
            (fun b => { b with amount := amount }) txn.bids) }
      let auction1 : Auction :=
        { auction with bids := (updateFirstWhere
            (fun b => b.userId == reqUserId)
            (fun b => { b with amount := amount }) auction.bids) }
      let auction2 : Auction := { auction1 with currentBid := amount }
      .ok (saveAuction s1 auction2)
    | _, _ =>
      match findUser txn reqUserId with
      | none => .error ⟨"User not found.", 500⟩
      | some bidderDetail =>
        let newDoc : BidDoc :=
          { bidderId := bidderDetail.id, bidderName := bidderDetail.userName,
            bidderImage := bidderDetail.profileImage, amount := amount,
            auctionItem := auction.id }
        let s1 : Store := { txn with bids := txn.bids ++ [newDoc] }
        let auction1 : Auction :=
          { auction with bids := (auction.bids ++
              [{ userId := reqUserId, userName := bidderDetail.userName,
                 profileImage := bidderDetail.profileImage, amount := amount }]) }
        let auction2 : Auction := { auction1 with currentBid := amount }
        .ok (saveAuction s1 auction2)

/-- The `placeBid` handler.  `pre` is the store at the initial
`Auction.findById` read; `txn` is the store the transaction runs
against.  Returns the response (`.ok amount` on success, the error
otherwise) together with the committed store; every failure path leaves
the store as `txn`. -/
def placeBid (pre txn : Store) (auctionId reqUserId : Nat)
    (amount? : Option Int) : Except ErrHandler Int × Store :=
  match findAuction pre auctionId with
  | none => (.error ⟨"Auction Item not found.", 404⟩, txn)
  | some auctionItem =>
    if jsFalsy amount? then
      (.error ⟨"Please place your bid.", 404⟩, txn)
    else
      match amount? with
      | none => (.error ⟨"Please place your bid.", 404⟩, txn)
      | some amount =>
        if amount ≤ auctionItem.currentBid then
          (.error ⟨"Bid amount must be greater than the current bid.", 404⟩, txn)
        else if amount < auctionItem.startingBid then
          (.error ⟨"Bid amount must be greater than starting bid.", 404⟩, txn)
        else
          match placeBidTxn txn auctionId reqUserId amount with
          | .error e => (.error e, txn)
          | .ok s2 => (.ok amount, s2)

/-- `placeBid` as executed serially: the pre-transaction read and the
transaction see the same store. -/
def placeBidSeq (s : Store) (auctionId reqUserId : Nat) (amount? : Option Int) :
    Except ErrHandler Int × Store :=
  placeBid s s auctionId reqUserId amount?

/-- The step-2 rollback of `republishItem`: the highest bidder loses the
winning amount from `moneySpent` and one from `auctionsWon`. -/
def rollbackWinner (hb : User) (cb : Int) : User :=
  { hb with moneySpent := hb.moneySpent - cb, auctionsWon := hb.auctionsWon - 1 }

/-- The step-3 reset of `republishItem`: new window, no bids, no winner,
zero current bid, commission flag cleared. -/
def resetAuction (a : Auction) (ns ne : Int) : Auction :=
  { a with
    startTime := ns, endTime := ne, bids := [],
    commissionCalculated := false, currentBid := 0, highestBidder := none }

/-- The step-4 `Bid.deleteMany({auctionItem: id})` of `republishItem`. -/
def deleteAuctionBids (s : Store) (aid : Nat) : Store :=
  { s with bids := s.bids.filter (fun b => !(b.auctionItem == aid)) }

/-- The `withTransaction` body of `republishItem` (steps 1 to 5 of the
source): fetch the auction, require it to have ended, roll back the
highest bidder statistics if any, reset the auction fields to the new
window, delete the standalone `Bid` documents of this auction, and zero
the requesting user `unpaidCommission`.  An error rolls everything
back. -/
def republishTxn (s : Store) (now : Int) (auctionId reqUserId : Nat)
    (newStart newEnd : Int) : Except ErrHandler Store :=
  match findAuction s auctionId with
  | none => .error ⟨"Auction not found.", 404⟩
  | some auctionItem =>
    if now < auctionItem.endTime then
      .error ⟨"Auction is already active, cannot republish", 400⟩
    else
      let afterHb : Except ErrHandler Store :=
        match auctionItem.highestBidder with
        | none => .ok s
        | some hbId =>
          match findUser s hbId with
          | none => .error ⟨"Highest bidder not found.", 500⟩
          | some hb => .ok (saveUser s (rollbackWinner hb auctionItem.currentBid))
      match afterHb with
      | .error e => .error e
      | .ok s1 =>
        let s2 := saveAuction s1 (resetAuction auctionItem newStart newEnd)
        let s3 := deleteAuctionBids s2 auctionId
        match findUser s3 reqUserId with
        | none => .error ⟨"Creator user not found.", 500⟩
        | some creator => .ok (saveUser s3 { creator with unpaidCommission := 0 })

/-- The `republishItem` handler.  `startTime?` and `endTime?` are the raw
request body fields (absent or zero is falsy, as in the source test
`!req.body.startTime`); the `ObjectId` format guard is omitted because
ids are modelled as `Nat`.  Every failure path leaves the store
unchanged. -/
def republishItem (s : Store) (now : Int) (auctionId reqUserId : Nat)
    (startTime? endTime? : Option Int) : Except ErrHandler Unit × Store :=
  if jsFalsy startTime? || jsFalsy endTime? then
    (.error ⟨"Starttime and Endtime for republish is mandatory.", 500⟩, s)
  else
    match startTime?, endTime? with
    | some newStart, some newEnd =>
      if newStart < now then
        (.error ⟨"Auction starting time must be greater than present time", 400⟩, s)
      else if newEnd ≤ newStart then
        (.error ⟨"Auction starting time must be less than ending time.", 400⟩, s)
      else
        match republishTxn s now auctionId reqUserId newStart newEnd with
        | .error e => (.error e, s)
        | .ok s2 => (.ok (), s2)
    | _, _ => (.error ⟨"Starttime and Endtime for republish is mandatory.", 500⟩, s)

/-- The request data of `addNewAuctionItem`.  Booleans record whether the
corresponding source check passes: `hasImage` is the `req.files` test,
`formatAllowed` the mimetype whitelist, and the four text fields are
their truthiness; the numeric fields keep their raw `Option Int` form so
the shared truthiness test applies to them. -/
structure AuctionRequest where
  hasImage : Bool
  formatAllowed : Bool
  titleOk : Bool
  descriptionOk : Bool
  categoryOk : Bool
  conditionOk : Bool
  startingBid : Option Int
  startTime : Option Int
  endTime : Option Int
deriving Repr, DecidableEq

/-- The `addNewAuctionItem` handler.  `cloudOk` stands for the cloudinary
upload succeeding (an external collaborator); `newId` is the id Mongo
assigns to the created document.  The created auction starts with
`currentBid = 0`, no bids, no highest bidder and
`commissionCalculated = false`, per the schema defaults. -/
def addNewAuctionItem (s : Store) (now : Int) (reqUserId : Nat)
    (req : AuctionRequest) (cloudOk : Bool) (newId : Nat) :
    Except ErrHandler Unit × Store :=
  if !req.hasImage then
    (.error ⟨"Auction item image required.", 400⟩, s)
  else if !req.formatAllowed then
    (.error ⟨"File format not supported.", 400⟩, s)
  else if !req.titleOk || !req.descriptionOk || !req.categoryOk || !req.conditionOk
      || jsFalsy req.startingBid || jsFalsy req.startTime || jsFalsy req.endTime then
    (.error ⟨"Please provide all details.", 400⟩, s)
  else
    match req.startingBid, req.startTime, req.endTime with
    | some sb, some st, some et =>
      if st < now then
        (.error ⟨"Auction starting time must be greater than present time.", 400⟩, s)
      else if et ≤ st then
        (.error ⟨"Auction starting time must be less than ending time.", 400⟩, s)
      else
        let alreadyOneAuctionActive :=
          s.auctions.filter (fun a => a.createdBy == reqUserId && now < a.endTime)
        if 0 < alreadyOneAuctionActive.length then
          (.error ⟨"You already have one active auction.", 400⟩, s)
        else if !cloudOk then
          (.error ⟨"Failed to upload auction image to cloudinary.", 500⟩, s)
        else
          let auctionItem : Auction :=
            { id := newId, startingBid := sb, currentBid := 0,
              startTime := st, endTime := et, bids := [],
              highestBidder := none, commissionCalculated := false,
              createdBy := reqUserId }
          (.ok (), { s with auctions := s.auctions ++ [auctionItem] })
    | _, _, _ => (.error ⟨"Please provide all details.", 400⟩, s)

/-- Number of embedded bid entries of one bidder inside an auction. -/
def embCount (a : Auction) (uid : Nat) : Nat :=
  a.bids.countP (fun b => b.userId == uid)

/-- Number of standalone `Bid` documents of one (bidder, auction) pair. -/
def docCount (s : Store) (uid aid : Nat) : Nat :=
  s.bids.countP (fun b => b.bidderId == uid && b.auctionItem == aid)

/-- Decidable per-key uniqueness of a list: no two elements share a key. -/
def nodupKeys {α : Type} (key : α → Nat) : List α → Bool
  | [] => true
  | x :: xs => !(xs.any (fun y => key y == key x)) && nodupKeys key xs

theorem countP_updFirst (p : α → Bool) (f : α → α) (q : α → Bool)
    (h : ∀ x, q (f x) = q x) :
    ∀ xs : List α, (updateFirstWhere p f xs).countP q = xs.countP q
  | [] => rfl
  | x :: xs => by
    unfold updateFirstWhere
    cases hpx : p x with
    | true => simp [List.countP_cons, h x]
    | false => simp [List.countP_cons, countP_updFirst p f q h xs]

theorem find?_updFirst_self (p : α → Bool) (f : α → α)
    (h : ∀ x, p x = true → p (f x) = true) :
    ∀ xs : List α, (updateFirstWhere p f xs).find? p = (xs.find? p).map f
  | [] => rfl
  | x :: xs => by
    unfold updateFirstWhere
    cases hpx : p x with
    | true =>
      rw [if_pos rfl, List.find?_cons_of_pos _ (h x hpx), List.find?_cons_of_pos _ hpx]
      rfl
    | false =>
      rw [if_neg (by simp [hpx]), List.find?_cons_of_neg _ (by simp [hpx]),
        List.find?_cons_of_neg _ (by simp [hpx])]
      exact find?_updFirst_self p f h xs

theorem find?_updFirst_other (p q : α → Bool) (f : α → α)
    (h : ∀ x, p x = true → q x = false ∧ q (f x) = false) :
    ∀ xs : List α, (updateFirstWhere p f xs).find? q = xs.find? q
  | [] => rfl
  | x :: xs => by
    unfold updateFirstWhere
    cases hpx : p x with
    | true =>
      rw [if_pos rfl, List.find?_cons_of_neg _ (by simp [(h x hpx).2]),
        List.find?_cons_of_neg _ (by simp [(h x hpx).1])]
    | false =>
      rw [if_neg (by simp [hpx])]
      cases hqx : q x with
      | true =>
        rw [List.find?_cons_of_pos _ hqx, List.find?_cons_of_pos _ hqx]
      | false =>
        rw [List.find?_cons_of_neg _ (by simp [hqx]),
          List.find?_cons_of_neg _ (by simp [hqx])]
        exact find?_updFirst_other p q f h xs

theorem countP_le_one_of_nodupKeys (key : α → Nat) (k : Nat) :
    ∀ xs : List α, nodupKeys key xs = true →
      xs.countP (fun x => key x == k) ≤ 1
  | [], _ => by simp
  | x :: xs, h => by
    unfold nodupKeys at h
    rw [Bool.and_eq_true] at h
    obtain ⟨h1, h2⟩ := h
    rw [List.countP_cons]
    cases hk : (key x == k) with
    | false => simpa using countP_le_one_of_nodupKeys key k xs h2
    | true =>
      have hx : key x = k := by simpa using hk
      have h1' : ∀ z ∈ xs, ¬ key z = key x := by simpa using h1
      have hz : xs.countP (fun y => key y == k) = 0 := by
        rw [List.countP_eq_zero]
        intro y hy
        simpa [hx] using h1' y hy
      simp [hz]

/-- Users appearing in the concrete stores below. -/
def alice : User :=
  { id := 7, userName := "alice", profileImage := "a.png",
    moneySpent := 0, auctionsWon := 0, unpaidCommission := 0 }

def bob : User :=
  { id := 9, userName := "bob", profileImage := "b.png",
    moneySpent := 0, auctionsWon := 0, unpaidCommission := 0 }

/-- Auction number 1, created by user 5, with the given prices and
embedded bid entries. -/
def mkAuction (startingBid currentBid : Int) (bids : List EmbBid) : Auction :=
  { id := 1, startingBid := startingBid, currentBid := currentBid,
    startTime := 0, endTime := 1000, bids := bids,
    highestBidder := none, commissionCalculated := false, createdBy := 5 }

/-- A fresh auction with no bids yet: startingBid 10, currentBid 0. -/
def storeFresh : Store :=
  { auctions := [mkAuction 10 0 []], bids := [], users := [alice] }

/-- An auction mid-run: bob holds the current bid of 15 over a starting
bid of 10; representations are synchronized. -/
def storeActive : Store :=
  { auctions := [mkAuction 10 15
      [{ userId := 9, userName := "bob", profileImage := "b.png", amount := 15 }]],
    bids := [{ bidderId := 9, bidderName := "bob", bidderImage := "b.png",
               amount := 15, auctionItem := 1 }],
    users := [alice, bob] }

/-- An auction whose current bid (150) exceeds its starting bid (100). -/
def storeHigh : Store :=
  { auctions := [mkAuction 100 150
      [{ userId := 9, userName := "bob", profileImage := "b.png", amount := 150 }]],
    bids := [{ bidderId := 9, bidderName := "bob", bidderImage := "b.png",
               amount := 150, auctionItem := 1 }],
    users := [alice, bob] }

/-- The store just before the racing `placeBid`: alice sees a current
bid of 20 when the handler performs its pre-transaction read. -/
def preRace : Store :=
  { auctions := [mkAuction 10 20
      [{ userId := 9, userName := "bob", profileImage := "b.png", amount := 20 }]],
    bids := [{ bidderId := 9, bidderName := "bob", bidderImage := "b.png",
               amount := 20, auctionItem := 1 }],
    users := [alice, bob] }

/-- The same store once a concurrent bid of 100 by bob has committed
before the transaction of the racing call starts. -/
def txnRace : Store :=
  { auctions := [mkAuction 10 100
      [{ userId := 9, userName := "bob", profileImage := "b.png", amount := 100 }]],
    bids := [{ bidderId := 9, bidderName := "bob", bidderImage := "b.png",
               amount := 100, auctionItem := 1 }],
    users := [alice, bob] }

/-- A desynchronized store: alice has an embedded entry in the auction
but no standalone Bid document. -/
def storeEmbOnly : Store :=
  { auctions := [mkAuction 10 30
      [{ userId := 7, userName := "alice", profileImage := "a.png", amount := 30 }]],
    bids := [],
    users := [alice] }

/-- The mirror-image desynchronized store: alice has a standalone Bid
document but no embedded entry in the auction. -/
def storeDocOnly : Store :=
  { auctions := [mkAuction 10 30 []],
    bids := [{ bidderId := 7, bidderName := "alice", bidderImage := "a.png",
               amount := 30, auctionItem := 1 }],
    users := [alice] }

/-- The auction document stored in `storeEnded`. -/
def endedAuction : Auction :=
  { id := 1, startingBid := 100, currentBid := 200,
    startTime := 0, endTime := 10,
    bids := [{ userId := 9, userName := "bob", profileImage := "b.png",
               amount := 200 }],
    highestBidder := some 9, commissionCalculated := true, createdBy := 5 }

/-- Carol, creator of the ended auction, owed commission 40. -/
def carol : User :=
  { id := 5, userName := "carol", profileImage := "c.png",
    moneySpent := 0, auctionsWon := 0, unpaidCommission := 40 }

/-- Bob after winning the ended auction at 200. -/
def bobWinner : User :=
  { id := 9, userName := "bob", profileImage := "b.png",
    moneySpent := 200, auctionsWon := 1, unpaidCommission := 0 }

/-- A settled, ended auction: bob won it at 200, carol created it and is
owed commission 40. -/
def storeEnded : Store :=
  { auctions := [endedAuction],
    bids := [{ bidderId := 9, bidderName := "bob", bidderImage := "b.png",
               amount := 200, auctionItem := 1 }],
    users := [carol, bobWinner] }

/-- A store with no auctions at all. -/
def storeNoAuctions : Store :=
  { auctions := [], bids := [], users := [alice] }

/-- A fully valid auction-creation request. -/
def reqValid : AuctionRequest :=
  { hasImage := true, formatAllowed := true, titleOk := true,
    descriptionOk := true, categoryOk := true, conditionOk := true,
    startingBid := some 10, startTime := some 200, endTime := some 300 }

/-- Every error a `placeBid` transaction body can raise. -/
theorem placeBidTxn_error_cases (txn : Store) (aid uid : Nat) (v : Int)
    (e : ErrHandler) (h : placeBidTxn txn aid uid v = .error e) :
    e = ⟨"Auction Item not found.", 404⟩ ∨ e = ⟨"User not found.", 500⟩ := by
  unfold placeBidTxn at h
  cases hfa : findAuction txn aid with
  | none =>
    simp only [hfa, Except.error.injEq] at h
    exact Or.inl h.symm
  | some auction =>
    simp only [hfa] at h
    cases hbd : findBidDoc txn uid aid with
    | some bd =>
      cases hba : List.find? (fun b => b.userId == uid) auction.bids with
      | some eb =>
        simp [hbd, hba] at h
      | none =>
        simp only [hbd, hba] at h
        cases hu : findUser txn uid with
        | none =>
          simp only [hu, Except.error.injEq] at h
          exact Or.inr h.symm
        | some d =>
          simp [hu] at h
    | none =>
      simp only [hbd] at h
      cases hu : findUser txn uid with
      | none =>
        simp only [hu, Except.error.injEq] at h
        exact Or.inr h.symm
      | some d =>
        simp [hu] at h

/-- C4 counterexample: the amount 0 is present and numeric, yet the
presence validation rejects the call (JavaScript truthiness), refuting
the claim that no call with a present, numeric amount is rejected by this
validation. -/
theorem placeBid_rejects_present_zero_amount :
    placeBidSeq storeFresh 1 7 (some 0)
      = (.error ⟨"Please place your bid.", 404⟩, storeFresh)
    ∧ (some (0 : Int)).isSome = true := by
  exact ⟨rfl, rfl⟩

/-- C4 (amended): the presence validation of `placeBid` fires exactly on
JavaScript-falsy amounts, i.e. an absent field or the number 0; it fires
before every business-rule check, and no call with a present nonzero
amount is rejected by it. -/
theorem placeBid_presence_validation (pre txn : Store) (aid uid : Nat)
    (amount? : Option Int) (a : Auction) (ha : findAuction pre aid = some a) :
    (jsFalsy amount? = true →
      placeBid pre txn aid uid amount?
        = (.error ⟨"Please place your bid.", 404⟩, txn))
    ∧ (jsFalsy amount? = false →
      (placeBid pre txn aid uid amount?).1
        ≠ .error ⟨"Please place your bid.", 404⟩) := by
  constructor
  · intro hf
    simp [placeBid, ha, hf]
  · intro hf
    cases amount? with
    | none => simp [jsFalsy] at hf
    | some v =>
      simp only [placeBid, ha, hf]
      simp only [Bool.false_eq_true, if_false]
      split
      · simp
      · split
        · simp
        · cases hr : placeBidTxn txn aid uid v with
          | error e =>
            simp only [hr, ne_eq, Except.error.injEq]
            rcases placeBidTxn_error_cases txn aid uid v e hr with h | h <;>
              (subst h; decide)
          | ok s2 => simp [hr]

/-- C5 counterexample: the amount 0 is less than or equal to the current
bid of 15, but the call fails with the InvalidInput message of the
presence check, not with the Rejected message of the bid-too-low check,
refuting the claim that such a submission always fails with Rejected. -/
theorem placeBid_zero_low_bid_wrong_error :
    placeBidSeq storeActive 1 7 (some 0)
      = (.error ⟨"Please place your bid.", 404⟩, storeActive)
    ∧ ((0 : Int) ≤ 15)
    ∧ ((findAuction storeActive 1).map Auction.currentBid = some 15)
    ∧ (ErrHandler.mk "Please place your bid." 404
        ≠ ⟨"Bid amount must be greater than the current bid.", 404⟩) := by
  refine ⟨rfl, by decide, rfl, by decide⟩

/-- C5 (amended): submitting an amount at most the pre-fetched currentBid
always fails and leaves the store unchanged; the failure carries the
bid-too-low Rejected message whenever the amount is nonzero, and the
earlier InvalidInput presence message when the amount is 0. -/
theorem placeBid_low_amount_rejected (pre txn : Store) (aid uid : Nat)
    (v : Int) (a : Auction) (ha : findAuction pre aid = some a)
    (hle : v ≤ a.currentBid) :
    (placeBid pre txn aid uid (some v)).2 = txn
    ∧ (v ≠ 0 → placeBid pre txn aid uid (some v)
        = (.error ⟨"Bid amount must be greater than the current bid.", 404⟩, txn))
    ∧ (v = 0 → placeBid pre txn aid uid (some v)
        = (.error ⟨"Please place your bid.", 404⟩, txn)) := by
  by_cases h0 : v = 0
  · subst h0
    have hf : jsFalsy (some 0) = true := rfl
    refine ⟨?_, ?_, ?_⟩ <;> simp [placeBid, ha, hf]
  · have hf : jsFalsy (some v) = false := by simp [jsFalsy, h0]
    refine ⟨?_, ?_, ?_⟩ <;> simp [placeBid, ha, hf, hle, h0]

/-- C9 counterexample: the amount 50 is strictly below the starting bid
of 100, but because it is also at most the current bid of 150 the call
fails with the bid-too-low message, not the below-starting-bid message,
refuting the claim that every amount below startingBid fails with
Rejected below starting bid. -/
theorem placeBid_below_starting_wrong_error :
    placeBidSeq storeHigh 1 7 (some 50)
      = (.error ⟨"Bid amount must be greater than the current bid.", 404⟩, storeHigh)
    ∧ ((50 : Int) < 100)
    ∧ ((findAuction storeHigh 1).map Auction.startingBid = some 100)
    ∧ (ErrHandler.mk "Bid amount must be greater than the current bid." 404
        ≠ ⟨"Bid amount must be greater than starting bid.", 404⟩) := by
  refine ⟨rfl, by decide, rfl, by decide⟩

/-- C9 (amended): for an amount that passes the presence check (nonzero)
and the currentBid check (strictly above it), the starting-bid check
fails with the below-starting-bid Rejected message exactly when the
amount is strictly below startingBid; an amount equal to startingBid is
never rejected by this check, so amount at least startingBid satisfies
the precondition. -/
theorem placeBid_startingBid_check (pre txn : Store) (aid uid : Nat)
    (v : Int) (a : Auction) (ha : findAuction pre aid = some a)
    (h0 : v ≠ 0) (hgt : a.currentBid < v) :
    (v < a.startingBid →
      placeBid pre txn aid uid (some v)
        = (.error ⟨"Bid amount must be greater than starting bid.", 404⟩, txn))
    ∧ (a.startingBid ≤ v →
      (placeBid pre txn aid uid (some v)).1
        ≠ .error ⟨"Bid amount must be greater than starting bid.", 404⟩) := by
  have hf : jsFalsy (some v) = false := by simp [jsFalsy, h0]
  have hnle : ¬ v ≤ a.currentBid := not_le.mpr hgt
  constructor
  · intro hlt
    simp [placeBid, ha, hf, hnle, hlt]
  · intro hge
    have hnlt : ¬ v < a.startingBid := not_lt.mpr hge
    simp only [placeBid, ha, hf, Bool.false_eq_true, if_false, hnle, hnlt,
      if_neg hnle, if_neg hnlt]
    cases hr : placeBidTxn txn aid uid v with
    | error e =>
      simp only [hr, ne_eq, Except.error.injEq]
      rcases placeBidTxn_error_cases txn aid uid v e hr with h | h <;>
        (subst h; decide)
    | ok s2 => simp [hr]

/-- C4 witness: a call with the amount field absent is rejected by the
presence validation before any business-rule check. -/
theorem placeBid_presence_validation_witness :
    placeBid storeFresh storeFresh 1 7 none
      = (.error ⟨"Please place your bid.", 404⟩, storeFresh) :=
  (placeBid_presence_validation storeFresh storeFresh 1 7 none
    (mkAuction 10 0 []) rfl).1 rfl

/-- C5 witness: bidding 3 against a current bid of 15 is rejected with
the bid-too-low message and the store is unchanged. -/
theorem placeBid_low_amount_rejected_witness :
    placeBid storeActive storeActive 1 7 (some 3)
      = (.error ⟨"Bid amount must be greater than the current bid.", 404⟩,
         storeActive) :=
  (placeBid_low_amount_rejected storeActive storeActive 1 7 3
    (mkAuction 10 15
      [{ userId := 9, userName := "bob", profileImage := "b.png", amount := 15 }])
    rfl (by decide)).2.1 (by decide)

/-- C9 witness: bidding 5 against a fresh auction with starting bid 10
is rejected with the below-starting-bid message. -/
theorem placeBid_startingBid_check_witness :
    placeBid storeFresh storeFresh 1 7 (some 5)
      = (.error ⟨"Bid amount must be greater than starting bid.", 404⟩,
         storeFresh) :=
  (placeBid_startingBid_check storeFresh storeFresh 1 7 5
    (mkAuction 10 0 []) rfl (by decide) (by decide)).1 (by decide)

/-- An auction found by id carries that id. -/
theorem findAuction_id {s : Store} {id : Nat} {a : Auction}
    (h : findAuction s id = some a) : a.id = id := by
  simpa using List.find?_some h

/-- A user found by id carries that id. -/
theorem findUser_id {s : Store} {uid : Nat} {u : User}
    (h : findUser s uid = some u) : u.id = uid := by
  simpa using List.find?_some h

/-- Reading back an auction after saving one with the looked-up id. -/
theorem findAuction_saveAuction (s : Store) (a2 : Auction) (id : Nat)
    (hid : a2.id = id) :
    findAuction (saveAuction s a2) id = (findAuction s id).map (fun _ => a2) := by
  unfold findAuction saveAuction
  subst hid
  exact find?_updFirst_self _ _ (by simp) s.auctions

/-- Reading back a user after saving one with the looked-up id. -/
theorem findUser_saveUser_self (s : Store) (u2 : User) (uid : Nat)
    (hid : u2.id = uid) :
    findUser (saveUser s u2) uid = (findUser s uid).map (fun _ => u2) := by
  unfold findUser saveUser
  subst hid
  exact find?_updFirst_self _ _ (by simp) s.users

/-- Saving one user does not disturb the lookup of a different id. -/
theorem findUser_saveUser_other (s : Store) (u2 : User) (uid : Nat)
    (hid : ¬ u2.id = uid) :
    findUser (saveUser s u2) uid = findUser s uid := by
  unfold findUser saveUser
  apply find?_updFirst_other
  intro x hx
  have hx' : x.id = u2.id := by simpa using hx
  constructor
  · simp [hx', hid]
  · simp [hid]

/-- C1: the transaction body of `placeBid` never re-checks the amount
against the re-fetched auction: a bid of 50 that passed the
pre-transaction check against currentBid 20 commits even though the
auction re-fetched inside the transaction already carries currentBid
100, overwriting it with the smaller 50 - the committed amount is not
greater than the currentBid visible at the start of the transaction and
currentBid decreases. -/
theorem placeBid_commits_stale_check :
    (placeBid preRace txnRace 1 7 (some 50)).1 = .ok 50
    ∧ ((findAuction txnRace 1).map Auction.currentBid = some 100)
    ∧ ((findAuction (placeBid preRace txnRace 1 7 (some 50)).2 1).map
        Auction.currentBid = some 50)
    ∧ ((50 : Int) < 100) := by
  refine ⟨rfl, rfl, rfl, by decide⟩

/-- C2 counterexample: starting from a state satisfying the at-most-one
invariant (one embedded entry for alice, no standalone document), a
successful `placeBid` leaves alice with two embedded entries, so the
call does not preserve the invariant. -/
theorem placeBid_grows_embedded_past_one :
    ((findAuction storeEmbOnly 1).map (fun a => embCount a 7) = some 1)
    ∧ docCount storeEmbOnly 7 1 = 0
    ∧ ((placeBidSeq storeEmbOnly 1 7 (some 50)).1 = .ok 50)
    ∧ ((findAuction (placeBidSeq storeEmbOnly 1 7 (some 50)).2 1).map
        (fun a => embCount a 7) = some 2) := by
  refine ⟨rfl, rfl, rfl, rfl⟩

/-- C3 counterexample: with only the standalone Bid document present,
`placeBid` does not repair the pair and proceed as an update: it runs
the fresh-insert path and leaves two standalone documents for (alice,
auction 1) instead of one. -/
theorem placeBid_duplicates_standalone_doc :
    docCount storeDocOnly 7 1 = 1
    ∧ ((findAuction storeDocOnly 1).map (fun a => embCount a 7) = some 0)
    ∧ ((placeBidSeq storeDocOnly 1 7 (some 50)).1 = .ok 50)
    ∧ docCount (placeBidSeq storeDocOnly 1 7 (some 50)).2 7 1 = 2 := by
  refine ⟨rfl, rfl, rfl, rfl⟩

/-- Per-key uniqueness of the standalone documents of one auction bounds
every (bidder, auction) document count by one. -/
theorem docCount_le_one {s : Store} {aid : Nat}
    (hdoc : nodupKeys (fun (b : BidDoc) => b.bidderId)
      (s.bids.filter (fun b => b.auctionItem == aid)) = true) (u : Nat) :
    docCount s u aid ≤ 1 := by
  have h := countP_le_one_of_nodupKeys (fun (b : BidDoc) => b.bidderId) u _ hdoc
  rw [List.countP_filter] at h
  exact h

/-- `placeBid` either fails, returning an error with the
transaction-time store untouched, or succeeds, returning the submitted
amount and the output of a successful transaction body on it. -/
theorem placeBid_store_cases (pre txn : Store) (aid uid : Nat)
    (amount? : Option Int) :
    ((placeBid pre txn aid uid amount?).2 = txn
      ∧ ∃ e, (placeBid pre txn aid uid amount?).1 = .error e)
    ∨ ∃ v, amount? = some v
        ∧ (placeBid pre txn aid uid amount?).1 = .ok v
        ∧ placeBidTxn txn aid uid v = .ok (placeBid pre txn aid uid amount?).2 := by
  unfold placeBid
  cases hfa : findAuction pre aid with
  | none => exact Or.inl ⟨rfl, ⟨⟨"Auction Item not found.", 404⟩, rfl⟩⟩
  | some a0 =>
    cases hf : jsFalsy amount? with
    | true => exact Or.inl ⟨rfl, ⟨⟨"Please place your bid.", 404⟩, rfl⟩⟩
    | false =>
      cases amount? with
      | none => simp [jsFalsy] at hf
      | some v =>
        by_cases h1 : v ≤ a0.currentBid
        · exact Or.inl ⟨by simp [h1],
            ⟨⟨"Bid amount must be greater than the current bid.", 404⟩,
             by simp [h1]⟩⟩
        · by_cases h2 : v < a0.startingBid
          · exact Or.inl ⟨by simp [h1, h2],
              ⟨⟨"Bid amount must be greater than starting bid.", 404⟩,
               by simp [h1, h2]⟩⟩
          · cases hr : placeBidTxn txn aid uid v with
            | error e =>
              exact Or.inl ⟨by simp [h1, h2, hr], ⟨e, by simp [h1, h2, hr]⟩⟩
            | ok s2 =>
              right
              exact ⟨v, rfl, by simp [h1, h2, hr], by simp [h1, h2, hr]⟩

/-- `findAuction` only reads the auctions collection. -/
theorem findAuction_mk (au : List Auction) (bs : List BidDoc) (us : List User)
    (id : Nat) :
    findAuction { auctions := au, bids := bs, users := us } id
      = List.find? (fun a => a.id == id) au := rfl

/-- `findBidDoc` only reads the bids collection. -/
theorem findBidDoc_mk (au : List Auction) (bs : List BidDoc) (us : List User)
    (uid aid : Nat) :
    findBidDoc { auctions := au, bids := bs, users := us } uid aid
      = List.find? (fun b => b.bidderId == uid && b.auctionItem == aid) bs := rfl

/-- Saving an auction does not change standalone bid lookups. -/
theorem findBidDoc_saveAuction (s : Store) (a : Auction) (uid aid : Nat) :
    findBidDoc (saveAuction s a) uid aid = findBidDoc s uid aid := rfl

/-- A successful `placeBid` transaction body preserves per-bidder
uniqueness of both representations, provided the two representations
agree for the bidding user beforehand; when the standalone document
already existed (hence, by the agreement, the embedded entry too), both
records are updated in place to the new amount. -/
theorem placeBidTxn_uniqueness (txn : Store) (aid uid : Nat) (v : Int)
    (s2 : Store) (a : Auction) (ha : findAuction txn aid = some a)
    (hsync : (findBidDoc txn uid aid).isSome
      = (List.find? (fun b => b.userId == uid) a.bids).isSome)
    (hembU : ∀ u, embCount a u ≤ 1) (hdocU : ∀ u, docCount txn u aid ≤ 1)
    (hok : placeBidTxn txn aid uid v = .ok s2) :
    ∃ a2, findAuction s2 aid = some a2
      ∧ (∀ u, embCount a2 u ≤ 1) ∧ (∀ u, docCount s2 u aid ≤ 1)
      ∧ ((findBidDoc txn uid aid).isSome = true →
          List.find? (fun b => b.userId == uid) a2.bids
            = (List.find? (fun b => b.userId == uid) a.bids).map
                (fun b => { b with amount := v })
          ∧ findBidDoc s2 uid aid
            = (findBidDoc txn uid aid).map (fun b => { b with amount := v })) := by
  have haid : a.id = aid := findAuction_id ha
  unfold placeBidTxn at hok
  simp only [ha] at hok
  cases hbd : findBidDoc txn uid aid with
  | some bd =>
    cases hba : List.find? (fun b => b.userId == uid) a.bids with
    | none => rw [hbd, hba] at hsync; simp at hsync
    | some eb =>
      simp only [hbd, hba, Except.ok.injEq] at hok
      subst hok
      refine ⟨{ a with
          currentBid := v,
          bids := (updateFirstWhere (fun b => b.userId == uid)
            (fun b => { b with amount := v }) a.bids) }, ?_, ?_, ?_, ?_⟩
      · rw [findAuction_saveAuction]
        · rw [findAuction_mk]
          have ha2 : List.find? (fun x => x.id == aid) txn.auctions = some a := ha
          rw [ha2]
          rfl
        · exact haid
      · intro u
        simp only [embCount]
        rw [countP_updFirst (fun (b : EmbBid) => b.userId == uid)
          (fun b => { b with amount := v }) (fun b => b.userId == u)
          (fun x => rfl)]
        exact hembU u
      · intro u
        simp only [docCount, saveAuction]
        rw [countP_updFirst
          (fun (b : BidDoc) => b.bidderId == uid && b.auctionItem == aid)
          (fun b => { b with amount := v })
          (fun b => b.bidderId == u && b.auctionItem == aid)
          (fun x => rfl)]
        exact hdocU u
      · intro _
        constructor
        · have hfind := find?_updFirst_self (fun (b : EmbBid) => b.userId == uid)
            (fun b => { b with amount := v }) (fun x hx => hx) a.bids
          rw [hba] at hfind
          exact hfind
        · rw [findBidDoc_saveAuction, findBidDoc_mk]
          have hbd2 : List.find?
              (fun (b : BidDoc) => b.bidderId == uid && b.auctionItem == aid)
              txn.bids = some bd := hbd
          have hfind := find?_updFirst_self
            (fun (b : BidDoc) => b.bidderId == uid && b.auctionItem == aid)
            (fun b => { b with amount := v }) (fun x hx => hx) txn.bids
          rw [hbd2] at hfind
          exact hfind
  | none =>
    cases hba : List.find? (fun b => b.userId == uid) a.bids with
    | some eb => rw [hbd, hba] at hsync; simp at hsync
    | none =>
      simp only [hbd, hba] at hok
      cases hu : findUser txn uid with
      | none => simp [hu] at hok
      | some d =>
        have hdid : d.id = uid := findUser_id hu
        simp only [hu, Except.ok.injEq] at hok
        subst hok
        have hembZero : embCount a uid = 0 := by
          rw [embCount, List.countP_eq_zero]
          intro b hb
          exact (List.find?_eq_none.mp hba) b hb
        have hdocZero : docCount txn uid aid = 0 := by
          rw [docCount, List.countP_eq_zero]
          intro b hb
          exact (List.find?_eq_none.mp hbd) b hb
        refine ⟨{ a with
            currentBid := v,
            bids := (a.bids ++
              [{ userId := uid, userName := d.userName,
                 profileImage := d.profileImage, amount := v }]) }, ?_, ?_, ?_, ?_⟩
        · rw [findAuction_saveAuction]
          · rw [findAuction_mk]
            have ha2 : List.find? (fun x => x.id == aid) txn.auctions = some a := ha
            rw [ha2]
            rfl
          · exact haid
        · intro u
          simp only [embCount, List.countP_append]
          by_cases huid : uid = u
          · subst huid
            rw [embCount] at hembZero
            simp [hembZero, List.countP_cons]
          · have hne : ((uid : Nat) == u) = false := by simp [huid]
            have := hembU u
            rw [embCount] at this
            simpa [List.countP_cons, hne] using this
        · intro u
          simp only [docCount, saveAuction, List.countP_append]
          by_cases huid : uid = u
          · subst huid
            rw [docCount] at hdocZero
            simp [hdocZero, List.countP_cons, hdid, haid]
          · have hne : (d.id == u) = false := by simp [hdid, huid]
            have := hdocU u
            rw [docCount] at this
            simpa [List.countP_cons, hne] using this
        · intro hsome
          simp at hsome

/-- C2 (amended): `placeBid` preserves the at-most-one-per-bidder
invariant on both representations provided the two representations agree
for the bidding user (embedded entry present exactly when the standalone
document is): a successful repeat bid then updates the amount of the
existing embedded entry and of the existing standalone document in
place, and no per-bidder count exceeds one.  Without that proviso the
fresh-insert path can duplicate the representation that already
existed. -/
theorem placeBid_per_bidder_uniqueness (pre txn : Store) (aid uid : Nat)
    (amount? : Option Int) (a : Auction) (ha : findAuction txn aid = some a)
    (hsync : (findBidDoc txn uid aid).isSome
      = (List.find? (fun b => b.userId == uid) a.bids).isSome)
    (hemb : nodupKeys (fun (b : EmbBid) => b.userId) a.bids = true)
    (hdoc : nodupKeys (fun (b : BidDoc) => b.bidderId)
      (txn.bids.filter (fun b => b.auctionItem == aid)) = true) :
    ∃ a2, findAuction (placeBid pre txn aid uid amount?).2 aid = some a2
      ∧ (∀ u, embCount a2 u ≤ 1)
      ∧ (∀ u, docCount (placeBid pre txn aid uid amount?).2 u aid ≤ 1)
      ∧ (∀ v, (placeBid pre txn aid uid amount?).1 = .ok v →
          (findBidDoc txn uid aid).isSome = true →
          List.find? (fun b => b.userId == uid) a2.bids
            = (List.find? (fun b => b.userId == uid) a.bids).map
                (fun b => { b with amount := v })
          ∧ findBidDoc (placeBid pre txn aid uid amount?).2 uid aid
            = (findBidDoc txn uid aid).map (fun b => { b with amount := v })) := by
  have hembU : ∀ u, embCount a u ≤ 1 := fun u =>
    countP_le_one_of_nodupKeys _ u a.bids hemb
  have hdocU : ∀ u, docCount txn u aid ≤ 1 := docCount_le_one hdoc
  rcases placeBid_store_cases pre txn aid uid amount?
    with ⟨hst, e, herr⟩ | ⟨v0, hv0, hok1, hok⟩
  · rw [hst]
    refine ⟨a, ha, hembU, hdocU, ?_⟩
    intro v hokv _
    rw [herr] at hokv
    exact absurd hokv (by simp)
  · rcases placeBidTxn_uniqueness txn aid uid v0 _ a ha hsync hembU hdocU hok
      with ⟨a2, hfind, hembB, hdocB, hupd⟩
    refine ⟨a2, hfind, hembB, hdocB, ?_⟩
    intro v hokv hsome
    have hveq : v0 = v := by
      rw [hok1] at hokv
      injection hokv
    subst hveq
    exact hupd hsome

/-- C2 witness: bob rebids 20 over his synchronized records in
`storeActive`; afterwards his standalone documents for the auction still
number at most one, and the existing document was updated in place to
amount 20. -/
theorem placeBid_per_bidder_uniqueness_witness :
    docCount (placeBid storeActive storeActive 1 9 (some 20)).2 9 1 ≤ 1
    ∧ findBidDoc (placeBid storeActive storeActive 1 9 (some 20)).2 9 1
        = some { bidderId := 9, bidderName := "bob", bidderImage := "b.png",
                 amount := 20, auctionItem := 1 } :=
  match placeBid_per_bidder_uniqueness storeActive storeActive 1 9 (some 20)
      (mkAuction 10 15
        [{ userId := 9, userName := "bob", profileImage := "b.png", amount := 15 }])
      rfl rfl (by decide) (by decide) with
  | ⟨_, _, _, h3, h4⟩ => ⟨h3 9, by
      rw [(h4 20 (by rfl) (by decide)).2]
      rfl⟩

/-- In a mixed state (exactly one representation present) the
transaction body runs the fresh-insert branch, appending a new
standalone document and a new embedded entry with the submitted
amount. -/
theorem placeBidTxn_mixed (txn : Store) (aid uid : Nat) (v : Int)
    (a : Auction) (d : User) (ha : findAuction txn aid = some a)
    (hmixed : (findBidDoc txn uid aid).isSome
      ≠ (List.find? (fun b => b.userId == uid) a.bids).isSome)
    (hd : findUser txn uid = some d) :
    placeBidTxn txn aid uid v = .ok (saveAuction
      { txn with bids := (txn.bids ++
          [{ bidderId := d.id, bidderName := d.userName,
             bidderImage := d.profileImage, amount := v,
             auctionItem := a.id }]) }
      { a with
        currentBid := v,
        bids := (a.bids ++
          [{ userId := uid, userName := d.userName,
             profileImage := d.profileImage, amount := v }]) }) := by
  unfold placeBidTxn
  simp only [ha]
  cases hbd : findBidDoc txn uid aid with
  | some bd =>
    cases hba : List.find? (fun b => b.userId == uid) a.bids with
    | some eb => rw [hbd, hba] at hmixed; simp at hmixed
    | none => simp only [hbd, hba, hd]
  | none =>
    cases hba : List.find? (fun b => b.userId == uid) a.bids with
    | some eb => simp only [hbd, hba, hd]
    | none => rw [hbd, hba] at hmixed; simp at hmixed

/-- C3 (amended): when exactly one of the two representations exists for
the bidding (bidder, auction) pair, a successful `placeBid` does not
repair the pair from the existing record: it runs the fresh-insert path,
appending a brand-new standalone Bid document and a brand-new embedded
entry carrying the submitted amount and the bidder profile, which
duplicates whichever representation already existed. -/
theorem placeBid_mixed_state_inserts_fresh (pre txn : Store) (aid uid : Nat)
    (v : Int) (preA a : Auction) (d : User)
    (hpre : findAuction pre aid = some preA) (h0 : v ≠ 0)
    (hcb : preA.currentBid < v) (hsb : preA.startingBid ≤ v)
    (ha : findAuction txn aid = some a)
    (hmixed : (findBidDoc txn uid aid).isSome
      ≠ (List.find? (fun b => b.userId == uid) a.bids).isSome)
    (hd : findUser txn uid = some d) :
    (placeBid pre txn aid uid (some v)).1 = .ok v
    ∧ (placeBid pre txn aid uid (some v)).2.bids
        = txn.bids ++
          [{ bidderId := uid, bidderName := d.userName,
             bidderImage := d.profileImage, amount := v, auctionItem := aid }]
    ∧ (∃ a2, findAuction (placeBid pre txn aid uid (some v)).2 aid = some a2
        ∧ a2.bids = a.bids ++
          [{ userId := uid, userName := d.userName,
             profileImage := d.profileImage, amount := v }]
        ∧ a2.currentBid = v) := by
  have haid : a.id = aid := findAuction_id ha
  have hdid : d.id = uid := findUser_id hd
  have hf : jsFalsy (some v) = false := by simp [jsFalsy, h0]
  have hnle : ¬ v ≤ preA.currentBid := not_le.mpr hcb
  have hnlt : ¬ v < preA.startingBid := not_lt.mpr hsb
  have htxn := placeBidTxn_mixed txn aid uid v a d ha hmixed hd
  have hred : placeBid pre txn aid uid (some v)
      = (.ok v, saveAuction
          { txn with bids := (txn.bids ++
              [{ bidderId := d.id, bidderName := d.userName,
                 bidderImage := d.profileImage, amount := v,
                 auctionItem := a.id }]) }
          { a with
            currentBid := v,
            bids := (a.bids ++
              [{ userId := uid, userName := d.userName,
                 profileImage := d.profileImage, amount := v }]) }) := by
    unfold placeBid
    simp only [hpre, hf, Bool.false_eq_true, if_false, if_neg hnle, if_neg hnlt,
      htxn]
  refine ⟨by rw [hred], ?_, ?_⟩
  · rw [hred]
    simp only [saveAuction]
    rw [hdid, haid]
  · refine ⟨{ a with
        currentBid := v,
        bids := (a.bids ++
          [{ userId := uid, userName := d.userName,
             profileImage := d.profileImage, amount := v }]) }, ?_, rfl, rfl⟩
    rw [hred]
    rw [findAuction_saveAuction]
    · rw [findAuction_mk]
      have ha2 : List.find? (fun x => x.id == aid) txn.auctions = some a := ha
      rw [ha2]
      rfl
    · exact haid

/-- C3 witness: alice holds only the standalone document in
`storeDocOnly`; her successful rebid of 50 appends a second standalone
document instead of updating the existing one. -/
theorem placeBid_mixed_state_inserts_fresh_witness :
    (placeBid storeDocOnly storeDocOnly 1 7 (some 50)).2.bids
      = storeDocOnly.bids ++
        [{ bidderId := 7, bidderName := "alice",
           bidderImage := "a.png", amount := 50, auctionItem := 1 }] :=
  (placeBid_mixed_state_inserts_fresh storeDocOnly storeDocOnly 1 7 50
    (mkAuction 10 30 []) (mkAuction 10 30 []) alice rfl (by decide)
    (by decide) (by decide) rfl (by decide) rfl).2.1

/-- `findUser` only reads the users collection. -/
theorem findUser_mk (au : List Auction) (bs : List BidDoc) (us : List User)
    (uid : Nat) :
    findUser { auctions := au, bids := bs, users := us } uid
      = List.find? (fun x => x.id == uid) us := rfl

/-- Saving an auction does not change the users collection. -/
theorem users_saveAuction (s : Store) (a : Auction) :
    (saveAuction s a).users = s.users := rfl

/-- Saving a user rewrites the users collection in place. -/
theorem users_saveUser (s : Store) (u : User) :
    (saveUser s u).users
      = updateFirstWhere (fun x => x.id == u.id) (fun _ => u) s.users := rfl

/-- Saving a user does not change the auctions collection. -/
theorem findAuction_saveUser (s : Store) (u : User) (id : Nat) :
    findAuction (saveUser s u) id = findAuction s id := rfl

/-- Saving an auction does not change user lookups. -/
theorem findUser_saveAuction (s : Store) (a : Auction) (uid : Nat) :
    findUser (saveAuction s a) uid = findUser s uid := rfl

/-- Saving a user does not change the bids collection. -/
theorem bids_saveUser (s : Store) (u : User) : (saveUser s u).bids = s.bids := rfl

/-- Saving an auction does not change the bids collection. -/
theorem bids_saveAuction (s : Store) (a : Auction) :
    (saveAuction s a).bids = s.bids := rfl

/-- A transaction body of `republishItem` that commits found the auction
and found it ended. -/
theorem republishTxn_ok_preconds (s : Store) (now : Int) (aid uid : Nat)
    (ns ne : Int) (s2 : Store)
    (h : republishTxn s now aid uid ns ne = .ok s2) :
    ∃ a, findAuction s aid = some a ∧ a.endTime ≤ now := by
  unfold republishTxn at h
  cases ha : findAuction s aid with
  | none => simp [ha] at h
  | some a =>
    simp only [ha] at h
    by_cases hend : now < a.endTime
    · simp [hend] at h
    · exact ⟨a, rfl, not_lt.mp hend⟩

/-- `republishItem` either fails leaving the store untouched, or
succeeds, in which case the auction existed, had ended, and the new
window was valid. -/
theorem republishItem_cases (s : Store) (now : Int) (aid uid : Nat)
    (ns ne : Int) :
    ((republishItem s now aid uid (some ns) (some ne)).2 = s
      ∧ ∃ e, (republishItem s now aid uid (some ns) (some ne)).1 = .error e)
    ∨ ((republishItem s now aid uid (some ns) (some ne)).1 = .ok ()
      ∧ ∃ a, findAuction s aid = some a ∧ now ≤ ns ∧ ns < ne
          ∧ a.endTime ≤ now) := by
  unfold republishItem
  cases hf1 : jsFalsy (some ns) with
  | true => simp [hf1]
  | false =>
    cases hf2 : jsFalsy (some ne) with
    | true => simp [hf1, hf2]
    | false =>
      by_cases h1 : ns < now
      · simp [hf1, hf2, h1]
      · by_cases h2 : ne ≤ ns
        · simp [hf1, hf2, h1, h2]
        · cases hr : republishTxn s now aid uid ns ne with
          | error e => simp [hf1, hf2, h1, h2, hr]
          | ok s2 =>
            right
            rcases republishTxn_ok_preconds s now aid uid ns ne s2 hr
              with ⟨a, ha, hend⟩
            exact ⟨by simp [hf1, hf2, h1, h2, hr],
              ⟨a, ha, not_lt.mp h1, not_le.mp h2, hend⟩⟩

/-- C8: `republishItem` fails with an error and leaves every record
unchanged whenever the auction is missing, the new start is before now,
the new window is empty or inverted, or the auction is still live; and
the store can only change when all four preconditions hold. -/
theorem republish_precondition_checks (s : Store) (now : Int) (aid uid : Nat)
    (ns ne : Int) :
    ((findAuction s aid = none ∨ ns < now ∨ ne ≤ ns
        ∨ (∃ a, findAuction s aid = some a ∧ now < a.endTime)) →
      (∃ e, (republishItem s now aid uid (some ns) (some ne)).1 = .error e)
      ∧ (republishItem s now aid uid (some ns) (some ne)).2 = s)
    ∧ ((republishItem s now aid uid (some ns) (some ne)).2 ≠ s →
      ∃ a, findAuction s aid = some a ∧ now ≤ ns ∧ ns < ne
        ∧ a.endTime ≤ now) := by
  rcases republishItem_cases s now aid uid ns ne with ⟨hunch, he⟩ | ⟨hok, a, ha, hnow, hlt, hend⟩
  · exact ⟨fun _ => ⟨he, hunch⟩, fun hne2 => absurd hunch hne2⟩
  · constructor
    · intro hviol
      rcases hviol with hnone | hlt2 | hle2 | ⟨a2, ha2, hlive⟩
      · rw [ha] at hnone; exact absurd hnone (by simp)
      · exact absurd hlt2 (not_lt.mpr hnow)
      · exact absurd hle2 (not_le.mpr hlt)
      · rw [ha] at ha2
        have : a = a2 := by injection ha2
        subst this
        exact absurd hlive (not_lt.mpr hend)
    · intro _
      exact ⟨a, ha, hnow, hlt, hend⟩

/-- Deleting the bids of an auction does not change user lookups. -/
theorem findUser_deleteAuctionBids (s : Store) (aid uid : Nat) :
    findUser (deleteAuctionBids s aid) uid = findUser s uid := rfl

/-- Deleting the bids of an auction does not change auction lookups. -/
theorem findAuction_deleteAuctionBids (s : Store) (aid id : Nat) :
    findAuction (deleteAuctionBids s aid) id = findAuction s id := rfl

/-- Full reduction of a successful `republishItem` call on an ended
auction with a highest bidder, given the value of the creator lookup
performed after the rollback save. -/
theorem republishItem_winner_red (s : Store) (now : Int) (aid uid : Nat)
    (ns ne : Int) (a : Auction) (hbId : Nat) (hb cr2 : User)
    (hns : jsFalsy (some ns) = false) (hnef : jsFalsy (some ne) = false)
    (hvalid1 : ¬ ns < now) (hvalid2 : ¬ ne ≤ ns)
    (ha : findAuction s aid = some a) (hend : ¬ now < a.endTime)
    (hhb : a.highestBidder = some hbId) (hu : findUser s hbId = some hb)
    (hcreator : findUser (saveUser s (rollbackWinner hb a.currentBid)) uid
      = some cr2) :
    republishItem s now aid uid (some ns) (some ne)
      = (.ok (), saveUser
          (deleteAuctionBids
            (saveAuction (saveUser s (rollbackWinner hb a.currentBid))
              (resetAuction a ns ne)) aid)
          { cr2 with unpaidCommission := 0 }) := by
  have hcr3 : findUser
      (deleteAuctionBids
        (saveAuction (saveUser s (rollbackWinner hb a.currentBid))
          (resetAuction a ns ne)) aid) uid = some cr2 := by
    rw [findUser_deleteAuctionBids, findUser_saveAuction, hcreator]
  have htxn : republishTxn s now aid uid ns ne
      = .ok (saveUser
          (deleteAuctionBids
            (saveAuction (saveUser s (rollbackWinner hb a.currentBid))
              (resetAuction a ns ne)) aid)
          { cr2 with unpaidCommission := 0 }) := by
    unfold republishTxn
    simp only [ha, if_neg hend, hhb, hu, hcr3]
  unfold republishItem
  simp only [hns, hnef, Bool.or_self, Bool.false_eq_true, if_false,
    if_neg hvalid1, if_neg hvalid2, htxn]

/-- The bids collection after step 4 is the filter dropping this
auction. -/
theorem bids_deleteAuctionBids (s : Store) (aid : Nat) :
    (deleteAuctionBids s aid).bids
      = s.bids.filter (fun b => !(b.auctionItem == aid)) := rfl

/-- C6: a successful republish of an ended auction whose highestBidder
is set decrements that user moneySpent by the auction currentBid and
auctionsWon by one (no commissionCalculated guard), resets the auction
to the new window with empty bids, cleared flag, zero currentBid and no
highest bidder, and removes every standalone Bid document of this
auction. -/
theorem republish_inverts_winner (s : Store) (now : Int) (aid uid : Nat)
    (ns ne : Int) (a : Auction) (hbId : Nat) (hb cr : User)
    (hns : jsFalsy (some ns) = false) (hnef : jsFalsy (some ne) = false)
    (hvalid1 : ¬ ns < now) (hvalid2 : ¬ ne ≤ ns)
    (ha : findAuction s aid = some a) (hend : ¬ now < a.endTime)
    (hhb : a.highestBidder = some hbId) (hu : findUser s hbId = some hb)
    (hcr : findUser s uid = some cr) :
    (republishItem s now aid uid (some ns) (some ne)).1 = .ok ()
    ∧ (∃ a2, findAuction (republishItem s now aid uid (some ns) (some ne)).2 aid
        = some a2
        ∧ a2.startTime = ns ∧ a2.endTime = ne ∧ a2.bids = []
        ∧ a2.commissionCalculated = false ∧ a2.currentBid = 0
        ∧ a2.highestBidder = none)
    ∧ (∃ u2, findUser (republishItem s now aid uid (some ns) (some ne)).2 hbId
        = some u2
        ∧ u2.moneySpent = hb.moneySpent - a.currentBid
        ∧ u2.auctionsWon = hb.auctionsWon - 1)
    ∧ (∀ b ∈ (republishItem s now aid uid (some ns) (some ne)).2.bids,
        ¬ b.auctionItem = aid) := by
  have haid : a.id = aid := findAuction_id ha
  have hbigid : hb.id = hbId := findUser_id hu
  have hcrid : cr.id = uid := findUser_id hcr
  by_cases hcase : uid = hbId
  · subst hcase
    have hid2 : (rollbackWinner hb a.currentBid).id = uid := hbigid
    have hcreator : findUser (saveUser s (rollbackWinner hb a.currentBid)) uid
        = some (rollbackWinner hb a.currentBid) := by
      rw [findUser_saveUser_self _ _ _ hid2, hu]
      rfl
    have hred := republishItem_winner_red s now aid uid ns ne a uid hb
      (rollbackWinner hb a.currentBid) hns hnef hvalid1 hvalid2 ha hend hhb hu
      hcreator
    refine ⟨by rw [hred], ?_, ?_, ?_⟩
    · refine ⟨resetAuction a ns ne, ?_, rfl, rfl, rfl, rfl, rfl, rfl⟩
      rw [hred, findAuction_saveUser, findAuction_deleteAuctionBids]
      rw [findAuction_saveAuction]
      · rw [findAuction_saveUser, ha]
        rfl
      · exact haid
    · refine ⟨{ rollbackWinner hb a.currentBid with unpaidCommission := 0 },
        ?_, rfl, rfl⟩
      rw [hred]
      rw [findUser_saveUser_self]
      · rw [findUser_deleteAuctionBids, findUser_saveAuction, hcreator]
        rfl
      · exact hid2
    · rw [hred]
      intro b hbmem
      rw [bids_saveUser, bids_deleteAuctionBids] at hbmem
      have := List.mem_filter.mp hbmem
      simpa using this.2
  · have hidr : (rollbackWinner hb a.currentBid).id = hbId := hbigid
    have hcreator : findUser (saveUser s (rollbackWinner hb a.currentBid)) uid
        = some cr := by
      rw [findUser_saveUser_other]
      · exact hcr
      · rw [hidr]
        exact fun hh => hcase hh.symm
    have hred := republishItem_winner_red s now aid uid ns ne a hbId hb cr
      hns hnef hvalid1 hvalid2 ha hend hhb hu hcreator
    refine ⟨by rw [hred], ?_, ?_, ?_⟩
    · refine ⟨resetAuction a ns ne, ?_, rfl, rfl, rfl, rfl, rfl, rfl⟩
      rw [hred, findAuction_saveUser, findAuction_deleteAuctionBids]
      rw [findAuction_saveAuction]
      · rw [findAuction_saveUser, ha]
        rfl
      · exact haid
    · refine ⟨rollbackWinner hb a.currentBid, ?_, rfl, rfl⟩
      rw [hred]
      rw [findUser_saveUser_other]
      · rw [findUser_deleteAuctionBids, findUser_saveAuction]
        rw [findUser_saveUser_self _ _ _ hidr, hu]
        rfl
      · have hc0 : ({ cr with unpaidCommission := 0 } : User).id = uid := hcrid
        rw [hc0]
        exact hcase
    · rw [hred]
      intro b hbmem
      rw [bids_saveUser, bids_deleteAuctionBids] at hbmem
      have := List.mem_filter.mp hbmem
      simpa using this.2

/-- Full reduction of a successful `republishItem` call on an ended
auction with no highest bidder. -/
theorem republishItem_nowinner_red (s : Store) (now : Int) (aid uid : Nat)
    (ns ne : Int) (a : Auction) (cr2 : User)
    (hns : jsFalsy (some ns) = false) (hnef : jsFalsy (some ne) = false)
    (hvalid1 : ¬ ns < now) (hvalid2 : ¬ ne ≤ ns)
    (ha : findAuction s aid = some a) (hend : ¬ now < a.endTime)
    (hhb : a.highestBidder = none)
    (hcreator : findUser s uid = some cr2) :
    republishItem s now aid uid (some ns) (some ne)
      = (.ok (), saveUser
          (deleteAuctionBids (saveAuction s (resetAuction a ns ne)) aid)
          { cr2 with unpaidCommission := 0 }) := by
  have hcr3 : findUser
      (deleteAuctionBids (saveAuction s (resetAuction a ns ne)) aid) uid
      = some cr2 := by
    rw [findUser_deleteAuctionBids, findUser_saveAuction, hcreator]
  have htxn : republishTxn s now aid uid ns ne
      = .ok (saveUser
          (deleteAuctionBids (saveAuction s (resetAuction a ns ne)) aid)
          { cr2 with unpaidCommission := 0 }) := by
    unfold republishTxn
    simp only [ha, if_neg hend, hhb, hcr3]
  unfold republishItem
  simp only [hns, hnef, Bool.or_self, Bool.false_eq_true, if_false,
    if_neg hvalid1, if_neg hvalid2, htxn]

/-- C7: every successful republish resets the unpaidCommission of the
requesting user to exactly zero - a full reset, not a decrement; the
HTTP layer restricting republish to the auction creator is outside this
module, so the requester is assumed to be the user referenced by
createdBy, as in the contract of the specification. -/
theorem republish_resets_creator_commission (s : Store) (now : Int)
    (aid uid : Nat) (ns ne : Int) (a : Auction) (cr : User)
    (hns : jsFalsy (some ns) = false) (hnef : jsFalsy (some ne) = false)
    (hvalid1 : ¬ ns < now) (hvalid2 : ¬ ne ≤ ns)
    (ha : findAuction s aid = some a) (hend : ¬ now < a.endTime)
    (hreq : uid = a.createdBy)
    (hwin : ∀ hbId, a.highestBidder = some hbId → ∃ hb, findUser s hbId = some hb)
    (hcr : findUser s uid = some cr) :
    (republishItem s now aid uid (some ns) (some ne)).1 = .ok ()
    ∧ ∃ u2, findUser (republishItem s now aid uid (some ns) (some ne)).2
        a.createdBy = some u2 ∧ u2.unpaidCommission = 0 := by
  subst hreq
  have hcrid : cr.id = a.createdBy := findUser_id hcr
  cases hhb : a.highestBidder with
  | none =>
    have hred := republishItem_nowinner_red s now aid a.createdBy ns ne a cr
      hns hnef hvalid1 hvalid2 ha hend hhb hcr
    refine ⟨by rw [hred], ⟨{ cr with unpaidCommission := 0 }, ?_, rfl⟩⟩
    rw [hred]
    rw [findUser_saveUser_self]
    · rw [findUser_deleteAuctionBids, findUser_saveAuction, hcr]
      rfl
    · exact hcrid
  | some hbId =>
    rcases hwin hbId hhb with ⟨hb, hu⟩
    have hbigid : hb.id = hbId := findUser_id hu
    by_cases hcase : a.createdBy = hbId
    · subst hcase
      have hid2 : (rollbackWinner hb a.currentBid).id = a.createdBy := hbigid
      have hcreator : findUser (saveUser s (rollbackWinner hb a.currentBid))
          a.createdBy = some (rollbackWinner hb a.currentBid) := by
        rw [findUser_saveUser_self _ _ _ hid2, hu]
        rfl
      have hred := republishItem_winner_red s now aid a.createdBy ns ne a
        a.createdBy hb (rollbackWinner hb a.currentBid) hns hnef hvalid1
        hvalid2 ha hend hhb hu hcreator
      refine ⟨by rw [hred],
        ⟨{ rollbackWinner hb a.currentBid with unpaidCommission := 0 }, ?_, rfl⟩⟩
      rw [hred]
      rw [findUser_saveUser_self]
      · rw [findUser_deleteAuctionBids, findUser_saveAuction, hcreator]
        rfl
      · exact hid2
    · have hidr : (rollbackWinner hb a.currentBid).id = hbId := hbigid
      have hcreator : findUser (saveUser s (rollbackWinner hb a.currentBid))
          a.createdBy = some cr := by
        rw [findUser_saveUser_other]
        · exact hcr
        · rw [hidr]
          exact fun hh => hcase hh.symm
      have hred := republishItem_winner_red s now aid a.createdBy ns ne a
        hbId hb cr hns hnef hvalid1 hvalid2 ha hend hhb hu hcreator
      refine ⟨by rw [hred], ⟨{ cr with unpaidCommission := 0 }, ?_, rfl⟩⟩
      rw [hred]
      rw [findUser_saveUser_self]
      · rw [findUser_deleteAuctionBids, findUser_saveAuction, hcreator]
        rfl
      · exact hcrid

/-- C10: with every earlier validation passing, `addNewAuctionItem`
fails with the one-active-auction error whenever the requester already
owns an auction whose endTime is strictly in the future, and creates the
auction (appending it to the collection) only when no such auction
exists. -/
theorem addAuction_one_active_limit (s : Store) (now : Int) (uid : Nat)
    (req : AuctionRequest) (cloudOk : Bool) (newId : Nat) (sb st et : Int)
    (h1 : req.hasImage = true) (h2 : req.formatAllowed = true)
    (h3 : req.titleOk = true) (h4 : req.descriptionOk = true)
    (h5 : req.categoryOk = true) (h6 : req.conditionOk = true)
    (hsb : req.startingBid = some sb) (hsb0 : jsFalsy (some sb) = false)
    (hst : req.startTime = some st) (hst0 : jsFalsy (some st) = false)
    (het : req.endTime = some et) (het0 : jsFalsy (some et) = false)
    (hv1 : ¬ st < now) (hv2 : ¬ et ≤ st) :
    ((∃ a ∈ s.auctions, a.createdBy = uid ∧ now < a.endTime) →
      addNewAuctionItem s now uid req cloudOk newId
        = (.error ⟨"You already have one active auction.", 400⟩, s))
    ∧ ((∀ a ∈ s.auctions, a.createdBy = uid → a.endTime ≤ now) →
      cloudOk = true →
      addNewAuctionItem s now uid req cloudOk newId
        = (.ok (), { s with auctions := (s.auctions ++
            [{ id := newId, startingBid := sb, currentBid := 0,
               startTime := st, endTime := et, bids := [],
               highestBidder := none, commissionCalculated := false,
               createdBy := uid }]) })) := by
  constructor
  · rintro ⟨a0, hmem, hcrb, hlive⟩
    have hfil : 0 < (s.auctions.filter
        (fun a => a.createdBy == uid && now < a.endTime)).length := by
      rw [List.length_pos]
      intro hnil
      rw [List.filter_eq_nil_iff] at hnil
      exact hnil a0 hmem (by simp [hcrb, hlive])
    unfold addNewAuctionItem
    simp only [h1, h2, h3, h4, h5, h6, hsb, hst, het, hsb0, hst0, het0,
      Bool.not_true, Bool.or_self, Bool.false_eq_true, if_false,
      if_neg hv1, if_neg hv2, if_pos hfil]
  · intro hnone hcloud
    have hfil : (s.auctions.filter
        (fun a => a.createdBy == uid && now < a.endTime)) = [] := by
      rw [List.filter_eq_nil_iff]
      intro a0 hmem
      simp only [Bool.and_eq_true, beq_iff_eq, decide_eq_true_eq, not_and]
      intro hcrb
      exact not_lt.mpr (hnone a0 hmem hcrb)
    have hlen : ¬ 0 < (s.auctions.filter
        (fun a => a.createdBy == uid && now < a.endTime)).length := by
      rw [hfil]
      simp
    unfold addNewAuctionItem
    simp only [h1, h2, h3, h4, h5, h6, hsb, hst, het, hsb0, hst0, het0,
      Bool.not_true, Bool.or_self, Bool.false_eq_true, if_false,
      if_neg hv1, if_neg hv2, if_neg hlen, hcloud, if_true]

/-- C6 witness: republishing the settled auction of `storeEnded` at time
20 with window 30 to 40 succeeds. -/
theorem republish_inverts_winner_witness :
    (republishItem storeEnded 20 1 5 (some 30) (some 40)).1 = .ok () :=
  (republish_inverts_winner storeEnded 20 1 5 30 40 endedAuction 9 bobWinner
    carol rfl rfl (by decide) (by decide) (by decide) (by decide) (by decide)
    (by decide) (by decide)).1

/-- C7 witness: the same republish at time 25 with window 50 to 60,
issued by the creator, succeeds. -/
theorem republish_resets_creator_commission_witness :
    (republishItem storeEnded 25 1 5 (some 50) (some 60)).1 = .ok () :=
  (republish_resets_creator_commission storeEnded 25 1 5 50 60 endedAuction
    carol rfl rfl (by decide) (by decide) (by decide) (by decide) (by decide)
    (by
      intro hbId h
      have h9 : (9 : Nat) = hbId := by
        have := h
        simp [endedAuction] at this
        exact this
      subst h9
      exact ⟨bobWinner, by decide⟩)
    (by decide)).1

/-- C8 witness: republishing a missing auction id fails and leaves the
store unchanged. -/
theorem republish_precondition_checks_witness :
    (∃ e, (republishItem storeEnded 5 2 5 (some 30) (some 40)).1 = .error e)
    ∧ (republishItem storeEnded 5 2 5 (some 30) (some 40)).2 = storeEnded :=
  (republish_precondition_checks storeEnded 5 2 5 30 40).1 (Or.inl (by decide))

/-- C10 witness: with no active auction owned, the item is created. -/
theorem addAuction_one_active_limit_witness :
    addNewAuctionItem storeNoAuctions 100 7 reqValid true 1
      = (.ok (), { storeNoAuctions with auctions :=
          (storeNoAuctions.auctions ++
            [{ id := 1, startingBid := 10, currentBid := 0,
               startTime := 200, endTime := 300, bids := [],
               highestBidder := none, commissionCalculated := false,
               createdBy := 7 }]) }) :=
  (addAuction_one_active_limit storeNoAuctions 100 7 reqValid true 1 10 200 300
    rfl rfl rfl rfl rfl rfl rfl rfl rfl rfl rfl rfl (by decide) (by decide)).2
    (by simp [storeNoAuctions]) rfl
